import Mathlib

/-!
Verification development for the convop/pyoframe expression core.

The repository sources under version control here are `pyoframe/model.py`
and `tests/test_io.py`.  The expression/serialization core
(`pyoframe/core.py` and `pyoframe/constants.py`) is exercised by the tests
but its code is not available, so those parts are modelled from the
specification (marked `Modelled from the spec:` below).  `Model` (attribute
registration, `binary_variables`, `integer_variables`, the reserved-id-0
constant variable) is embedded from `pyoframe/model.py`.
-/

set_option maxRecDepth 4096

/-- Modelled from the spec: coefficients are decimal numbers whose input
precision must be preserved exactly by the serializer (spec section 4.5:
numbers render via a minimal faithful decimal form).  `Dec.mk m e`
denotes the exact value `m / 10 ^ e`.  Arithmetic is exact; normalization
happens only at render time. -/
structure Dec where
  m : Int
  e : Nat
deriving DecidableEq

/-- Modelled from the spec: exact addition of decimal coefficients
(align the two scales, then add the scaled mantissas). -/
def Dec.add (a b : Dec) : Dec :=
  Dec.mk (a.m * 10 ^ (max a.e b.e - a.e) + b.m * 10 ^ (max a.e b.e - b.e)) (max a.e b.e)

/-- Modelled from the spec: negation flips the sign of the mantissa. -/
def Dec.neg (a : Dec) : Dec :=
  Dec.mk (-a.m) a.e

/-- Modelled from the spec: exact multiplication of decimal coefficients. -/
def Dec.mul (a b : Dec) : Dec :=
  Dec.mk (a.m * b.m) (a.e + b.e)

/-- Sum of a list of decimal coefficients. -/
def decSum : List Dec → Dec
  | [] => Dec.mk 0 0
  | c :: rest => Dec.add c (decSum rest)

/-- Strip factors of ten so that the fractional part carries no trailing
zeros; this gives the canonical form used by the renderer. -/
def Dec.normAux : Int → Nat → Int × Nat
  | m, 0 => (m, 0)
  | m, e + 1 => if Int.emod m 10 = 0 then Dec.normAux (Int.ediv m 10) e else (m, e + 1)

def Dec.norm (d : Dec) : Dec :=
  Dec.mk (Dec.normAux d.m d.e).1 (Dec.normAux d.m d.e).2

def digitChar : Nat → Char
  | 0 => '0'
  | 1 => '1'
  | 2 => '2'
  | 3 => '3'
  | 4 => '4'
  | 5 => '5'
  | 6 => '6'
  | 7 => '7'
  | 8 => '8'
  | _ => '9'

/-- Decimal digits of `n`, most significant first (empty for zero).
The first argument is fuel; `n` itself is always enough fuel. -/
def natDigitsAux : Nat → Nat → List Char
  | 0, _ => []
  | f + 1, n => if n = 0 then [] else natDigitsAux f (n / 10) ++ [digitChar (n % 10)]

def natToStr (n : Nat) : String :=
  if n = 0 then "0" else String.mk (natDigitsAux n n)

def intToStr (i : Int) : String :=
  if i < 0 then "-" ++ natToStr i.natAbs else natToStr i.natAbs

def padZeros (e : Nat) (ds : List Char) : List Char :=
  List.replicate (e - ds.length) '0' ++ ds

/-- Modelled from the spec: minimal faithful decimal rendering of the
magnitude of a coefficient (spec section 4.5 step 1: no added or stripped
significant digits). -/
def Dec.renderMag (d : Dec) : String :=
  let n := Dec.norm d
  let a := n.m.natAbs
  if n.e = 0 then natToStr a
  else
    natToStr (a / 10 ^ n.e) ++ "." ++
      String.mk (padZeros n.e (natDigitsAux (a % 10 ^ n.e) (a % 10 ^ n.e)))

def Dec.isNeg (d : Dec) : Bool :=
  decide (d.m < 0)

/-- Signed decimal rendering (used for constraint right-hand sides). -/
def Dec.render (d : Dec) : String :=
  (if Dec.isNeg d then "-" else "") ++ Dec.renderMag d

/-- Modelled from the spec, section 4.3 (Term Store Merge Algorithm),
first lookup step: find the coefficient stored under a key. -/
def findCoeff? {κ : Type} [DecidableEq κ] : List (κ × Dec) → κ → Option Dec
  | [], _ => none
  | e :: rest, k => if e.1 = k then some e.2 else findCoeff? rest k

/-- Modelled from the spec, section 4.3 (Term Store Merge Algorithm):
if the key is absent the `(key, coefficient)` pair is appended at the end
of the bucket; if present the coefficient is replaced by `existing + new`
at its original position. -/
def mergeTerm {κ : Type} [DecidableEq κ] : List (κ × Dec) → κ → Dec → List (κ × Dec)
  | [], k, c => [(k, c)]
  | e :: rest, k, c =>
    if e.1 = k then (e.1, Dec.add e.2 c) :: rest else e :: mergeTerm rest k c

/-- Fold a sequence of primitive term insertions into a bucket, merging
per spec section 4.3. -/
def insertAll {κ : Type} [DecidableEq κ] (b : List (κ × Dec)) (ops : List (κ × Dec)) :
    List (κ × Dec) :=
  ops.foldl (fun acc p => mergeTerm acc p.1 p.2) b

def addKey {κ : Type} [DecidableEq κ] (ks : List κ) (k : κ) : List κ :=
  if k ∈ ks then ks else ks ++ [k]

/-- The first-occurrence subsequence of a list of keys: each key listed
once, at the position of its first occurrence. -/
def firstOccur {κ : Type} [DecidableEq κ] (ks : List κ) : List κ :=
  ks.foldl addKey []

/-- Total contribution of all insertions carrying a given key. -/
def coeffTotal {κ : Type} [DecidableEq κ] (ops : List (κ × Dec)) (k : κ) : Dec :=
  decSum ((ops.filter (fun p => decide (p.1 = k))).map Prod.snd)

/-- A dimension key: one concrete tuple of values for all dimensions of an
expression, identifying one broadcast row (spec section 3). -/
abbrev DimKey := List Int

/-- The reserved variable id of the constant variable ONE
(`CONST_TERM` in `pyoframe/constants.py`; `model.py` checks that the
first allocated variable has this index). -/
def CONST_TERM : Nat := 0

/-- Modelled from the spec: an Expression is a pair of ordered mappings
from (dimension-key, term-key) to coefficient, partitioned by polynomial
degree (degree 0/1 combined, degree 2 separate), together with the ordered
list of its dimension column names (spec section 3).  Linear term keys are
variable ids, with `CONST_TERM` standing for the constant; quadratic term
keys are pairs of variable ids stored in canonical ascending order. -/
structure Expression where
  dims : List String
  lin : List ((DimKey × Nat) × Dec)
  quad : List ((DimKey × (Nat × Nat)) × Dec)
deriving DecidableEq

/-- The dimension-key groups of an expression, in the order the keys are
first encountered (append order, never a sort; spec section 4.5). -/
def dimKeysOf (a : Expression) : List DimKey :=
  firstOccur (a.lin.map (fun e => e.1.1) ++ a.quad.map (fun e => e.1.1))

/-- Value of column `c` in a dimension key laid out by column list `sup`. -/
def colVal : List String → DimKey → String → Int
  | [], _, _ => 0
  | _ :: _, [], _ => 0
  | d :: ds, v :: vs, c => if d = c then v else colVal ds vs c

/-- Project a full dimension key (columns `sup`) down to the columns of
`sub`, in `sub`'s order. -/
def projKey (sup sub : List String) (key : DimKey) : DimKey :=
  sub.map (colVal sup key)

/-- Modelled from the spec, section 4.4: broadcast the entries of an
operand whose dimension columns are a strict subset of the other
operand's, replicating each entry across all values of the missing
columns found in the other operand. -/
def broadcastEntries {τ : Type} (sup : List String) (tks : List DimKey) (sub : List String)
    (entries : List ((DimKey × τ) × Dec)) : List ((DimKey × τ) × Dec) :=
  entries.flatMap (fun e => tks.filterMap (fun kb =>
    if projKey sup sub kb = e.1.1 then some ((kb, e.1.2), e.2) else none))

/-- Broadcast the whole expression `sub` into the dimension space of `sup`. -/
def broadcast (sup sub : Expression) : Expression :=
  Expression.mk sup.dims
    (broadcastEntries sup.dims (dimKeysOf sup) sub.dims sub.lin)
    (broadcastEntries sup.dims (dimKeysOf sup) sub.dims sub.quad)

def subsetDims (d1 d2 : List String) : Bool :=
  d1.all (fun c => decide (c ∈ d2))

/-- `d1` is a strict subset of `d2` (as sets of column names). -/
def strictSubDims (d1 d2 : List String) : Bool :=
  subsetDims d1 d2 && !(subsetDims d2 d1)

/-- Modelled from the spec, sections 4.4 and 9 (open question): align two
operands by dimension columns.  Equal column lists align directly; a
strict-subset operand is broadcast into the other's dimension space; any
other combination (non-nested, or partially overlapping) is rejected. -/
def align (a b : Expression) : Option (Expression × Expression) :=
  if a.dims = b.dims then some (a, b)
  else if strictSubDims a.dims b.dims then some (broadcast b a, b)
  else if strictSubDims b.dims a.dims then some (a, broadcast a b)
  else none

/-- Error taxonomy of the arithmetic engine (spec section 7). -/
inductive PfError where
  | dimensionMismatch
  | unsupportedOperation (msg : String)
deriving DecidableEq

def unsupportedMsg : String :=
  "only linear and quadratic expressions are supported"

/-- Modelled from the spec, section 4.4 (Add): align the operands, then
append the second operand's terms after the first's, merging by term key
per section 4.3.  Incompatible dimension sets give `dimensionMismatch`. -/
def Expression.add (a b : Expression) : Except PfError Expression :=
  match align a b with
  | none => Except.error PfError.dimensionMismatch
  | some p =>
    Except.ok (Expression.mk p.1.dims
      (insertAll [] (p.1.lin ++ p.2.lin))
      (insertAll [] (p.1.quad ++ p.2.quad)))

/-- Modelled from the spec, section 4.4: negation flips every
coefficient's sign, preserving order. -/
def Expression.neg (a : Expression) : Expression :=
  Expression.mk a.dims
    (a.lin.map (fun e => (e.1, Dec.neg e.2)))
    (a.quad.map (fun e => (e.1, Dec.neg e.2)))

/-- Modelled from the spec, section 4.4: `Subtract(A, B) = Add(A, Negate(B))`. -/
def Expression.sub (a b : Expression) : Except PfError Expression :=
  Expression.add a (Expression.neg b)

/-- Modelled from the spec, section 4.4: scalar multiplication scales every
coefficient in both buckets; a zero scalar yields the empty expression. -/
def scalarMul (k : Dec) (a : Expression) : Expression :=
  if k.m = 0 then Expression.mk a.dims [] []
  else
    Expression.mk a.dims
      (a.lin.map (fun e => (e.1, Dec.mul k e.2)))
      (a.quad.map (fun e => (e.1, Dec.mul k e.2)))

/-- A single-term constant expression (the degree-0 term is keyed by the
reserved constant variable `CONST_TERM`). -/
def constExpr (c : Dec) : Expression :=
  Expression.mk [] [(([], CONST_TERM), c)] []

/-- Modelled from the spec, section 3: derived polynomial degree of an
expression (2 when the quadratic bucket is non-empty, else 1 when some
linear term is keyed by a real variable, else 0). -/
def Expression.degree (a : Expression) : Nat :=
  if !a.quad.isEmpty then 2
  else if a.lin.any (fun e => decide (e.1.2 ≠ CONST_TERM)) then 1 else 0

/-- Key of the product of two degree-0/1 terms: a constant factor keeps the
other factor's key; two variable factors give a quadratic key stored in
canonical ascending order (spec section 4.4, Multiply). -/
def mulKey (dk : DimKey) (t1 t2 : Nat) : (DimKey × Nat) ⊕ (DimKey × (Nat × Nat)) :=
  if t1 = CONST_TERM then Sum.inl (dk, t2)
  else if t2 = CONST_TERM then Sum.inl (dk, t1)
  else Sum.inr (dk, (min t1 t2, max t1 t2))

/-- Modelled from the spec, section 4.4 (Multiply): elementwise product of
two expressions per dimension key, rejected with `UnsupportedOperationError`
when the product's degree would exceed 2.  Quadratic-times-linear cross
products occur only against constant factors (the degree guard excludes
every other combination). -/
def Expression.mul (a b : Expression) : Except PfError Expression :=
  if 2 < a.degree + b.degree then
    Except.error (PfError.unsupportedOperation unsupportedMsg)
  else
    match align a b with
    | none => Except.error PfError.dimensionMismatch
    | some p =>
      let linlin := p.1.lin.flatMap (fun e1 => p.2.lin.filterMap (fun e2 =>
        if e1.1.1 = e2.1.1 then some (mulKey e1.1.1 e1.1.2 e2.1.2, Dec.mul e1.2 e2.2)
        else none))
      let linPart := linlin.filterMap (fun pr =>
        match pr.1 with
        | Sum.inl lk => some (lk, pr.2)
        | Sum.inr _ => none)
      let quadPart := linlin.filterMap (fun pr =>
        match pr.1 with
        | Sum.inl _ => none
        | Sum.inr qk => some (qk, pr.2))
      let lq := p.1.lin.flatMap (fun e1 => p.2.quad.filterMap (fun e2 =>
        if e1.1.1 = e2.1.1 ∧ e1.1.2 = CONST_TERM then some (e2.1, Dec.mul e1.2 e2.2)
        else none))
      let ql := p.1.quad.flatMap (fun e1 => p.2.lin.filterMap (fun e2 =>
        if e1.1.1 = e2.1.1 ∧ e2.1.2 = CONST_TERM then some (e1.1, Dec.mul e1.2 e2.2)
        else none))
      Except.ok (Expression.mk p.1.dims
        (insertAll [] linPart)
        (insertAll [] (quadPart ++ lq ++ ql)))

/-- Modelled from the spec, section 4.4: `Square(A) = Multiply(A, A)`,
used for the `**2` operator. -/
def Expression.square (a : Expression) : Except PfError Expression :=
  Expression.mul a a

/-- Constraint relations (spec section 3). -/
inductive PfRel where
  | le
  | eq
  | ge
deriving DecidableEq

/-- Modelled from the spec, section 3: a Constraint holds the folded
`lhs - rhs` expression with its degree-0 terms removed, the relation, and
the sign-flipped constant moved to the right-hand side, one constant per
dimension key. -/
structure PfConstraint where
  dims : List String
  lhs : Expression
  rel : PfRel
  rhsConst : List (DimKey × Dec)
deriving DecidableEq

/-- Modelled from the spec, section 4.4 (Comparison): build a Constraint
from `lhs rel rhs` by subtracting, removing the degree-0 term of each
dimension-key group, and negating it into the per-key constant. -/
def mkConstraint (l r : Expression) (rel : PfRel) : Except PfError PfConstraint :=
  (Expression.sub l r).map (fun d =>
    PfConstraint.mk d.dims
      (Expression.mk d.dims (d.lin.filter (fun e => decide (e.1.2 ≠ CONST_TERM))) d.quad)
      rel
      (d.lin.filterMap (fun e =>
        if e.1.2 = CONST_TERM then some (e.1.1, Dec.neg e.2) else none)))

/-- Token naming a scalar variable by its id (spec section 4.5: the
id-derived token, also used for the reserved constant id). -/
def varName (i : Nat) : String :=
  "x" ++ natToStr i

/-- Modelled from the spec, section 4.5 step 1: the unsigned body of a
degree-0/1 term.  A constant term not kept against the constant variable
is a bare number; the magnitude is blank when it equals one. -/
def renderLinBody (includeConstVar : Bool) (t : Nat) (c : Dec) : String :=
  if t = CONST_TERM && !includeConstVar then Dec.renderMag c
  else
    let m := Dec.renderMag c
    if m = "1" then varName t else m ++ " " ++ varName t

/-- Modelled from the spec, section 4.5: sign policy.  The first rendered
token of a group has no leading plus (unless the sign-forcing option is
set) but keeps its minus; every later token carries an explicit sign glued
to the number. -/
def signedToken (first forcePlus : Bool) (neg : Bool) (body : String) : String :=
  if neg then "-" ++ body
  else if first && !forcePlus then body
  else "+" ++ body

/-- Render the degree-0/1 segment of one dimension-key group, iterating the
bucket in stored order (spec section 4.5 step 1). -/
def renderLinGroup (forcePlus includeConstVar : Bool) (ts : List (Nat × Dec)) : String :=
  match ts with
  | [] => ""
  | t0 :: rest =>
    String.intercalate " "
      (signedToken true forcePlus (Dec.isNeg t0.2) (renderLinBody includeConstVar t0.1 t0.2)
        :: rest.map (fun t =>
          signedToken false forcePlus (Dec.isNeg t.2) (renderLinBody includeConstVar t.1 t.2)))

/-- Unsigned body of a quadratic term (the coefficient shown is already
scaled by the divider). -/
def renderQuadBody (t : Nat × Nat) (c : Dec) : String :=
  let m := Dec.renderMag c
  let names := varName t.1 ++ " * " ++ varName t.2
  if m = "1" then names else m ++ " " ++ names

/-- Modelled from the spec, section 4.5 step 2: render the quadratic bucket
of one group in stored order, each coefficient multiplied by the divider
for display. -/
def renderQuadGroup (divider : Dec) (ts : List ((Nat × Nat) × Dec)) : String :=
  match ts with
  | [] => ""
  | t0 :: rest =>
    String.intercalate " "
      (signedToken true false (Dec.isNeg (Dec.mul t0.2 divider)) (renderQuadBody t0.1 (Dec.mul t0.2 divider))
        :: rest.map (fun t =>
          signedToken false false (Dec.isNeg (Dec.mul t.2 divider)) (renderQuadBody t.1 (Dec.mul t.2 divider))))

/-- The degree-0/1 terms of one dimension-key group, in stored order. -/
def groupLin (a : Expression) (g : DimKey) : List (Nat × Dec) :=
  a.lin.filterMap (fun e => if e.1.1 = g then some (e.1.2, e.2) else none)

/-- The quadratic terms of one dimension-key group, in stored order. -/
def groupQuad (a : Expression) (g : DimKey) : List ((Nat × Nat) × Dec) :=
  a.quad.filterMap (fun e => if e.1.1 = g then some (e.1.2, e.2) else none)

def keyStr (g : DimKey) : String :=
  String.intercalate "," (g.map intToStr)

/-- Modelled from the spec, section 4.5 step 2: the bracketed quadratic
block is followed by a division suffix unless the divider equals one. -/
def dividerSuffix (divider : Dec) : String :=
  if Dec.norm divider = Dec.mk 1 0 then "" else " / " ++ Dec.render divider

/-- One rendered group line: linear segment, then the bracketed quadratic
block when present. -/
def renderGroupLine (forcePlus includeConstVar : Bool) (divider : Dec)
    (lin : List (Nat × Dec)) (quad : List ((Nat × Nat) × Dec)) : String :=
  let l := renderLinGroup forcePlus includeConstVar lin
  if quad.isEmpty then l
  else l ++ " + [ " ++ renderQuadGroup divider quad ++ " ]" ++ dividerSuffix divider

/-- Modelled from the spec, section 4.5: the canonical serializer.  Groups
are emitted in first-encounter order; with more than one group each line is
prefixed by its bracketed dimension-key header. -/
def renderStr (a : Expression) (includeHeader forcePlus includeConstVar : Bool)
    (divider : Dec) : String :=
  let gs := dimKeysOf a
  String.intercalate "\n" (gs.map (fun g =>
    (if includeHeader && decide (1 < gs.length) then "[" ++ keyStr g ++ "]: " else "")
      ++ renderGroupLine forcePlus includeConstVar divider (groupLin a g) (groupQuad a g)))

/-- `str(...)` on an expression: default rendering options (no forced
sign, constant folded as a bare number, divider one). -/
def pyStr (a : Expression) : String :=
  renderStr a true false false (Dec.mk 1 0)

def relStr : PfRel → String
  | PfRel.le => "<="
  | PfRel.eq => "="
  | PfRel.ge => ">="

/-- Modelled from the spec, section 4.5 step 4: a Constraint renders its
expression followed by the relation token and the per-key constant. -/
def constraintRenderStr (c : PfConstraint) (includeHeader : Bool) (divider : Dec) : String :=
  let a := c.lhs
  let gs := dimKeysOf a
  String.intercalate "\n" (gs.map (fun g =>
    (if includeHeader && decide (1 < gs.length) then "[" ++ keyStr g ++ "]: " else "")
      ++ renderGroupLine false false divider (groupLin a g) (groupQuad a g)
      ++ " " ++ relStr c.rel ++ " "
      ++ Dec.render ((findCoeff? c.rhsConst g).getD (Dec.mk 0 0))))

/-- Modelled from the spec, section 4.1: the Identifier Allocator state is
the next id to issue, owned by one model. -/
structure AllocState where
  next : Nat
deriving DecidableEq

/-- Variable classes (`VType` in `pyoframe/constants.py`). -/
inductive VType where
  | continuous
  | binary
  | integer
deriving DecidableEq

/-- Modelled from the spec, sections 3 and 4.2: a possibly dimensioned
decision variable.  A variable with N index rows denotes N scalar
variables whose ids form one contiguous ascending block assigned in index
row order. -/
structure PfVariable where
  ids : List Nat
  dims : List String
  rows : List DimKey
  vtype : VType
  lb : Int
  ub : Int
deriving DecidableEq

/-- Modelled from the spec, section 4.2: create a variable, allocating one
id per index row in table row order (a scalar variable is the one-row,
no-columns case). -/
def createVariable (s : AllocState) (dims : List String) (rows : List DimKey)
    (vt : VType) (lb ub : Int) : PfVariable × AllocState :=
  (PfVariable.mk ((List.range rows.length).map (fun i => i + s.next)) dims rows vt lb ub,
    AllocState.mk (s.next + rows.length))

/-- Embedded from `Model.create_pyoptint_model` in `pyoframe/model.py`
lines 83-102: model construction adds the constant variable ONE with
bounds fixed at 1 before any user ids are issued, and that variable must
receive index `CONST_TERM` (0). -/
def create_pyoptint_model : PfVariable × AllocState :=
  createVariable (AllocState.mk 0) [] [[]] VType.continuous 1 1

/-- Allocator state of a freshly constructed model (id 0 already consumed
by the constant variable ONE). -/
def m0 : AllocState :=
  create_pyoptint_model.2

/-- Modelled from the spec, section 4.2: the initial expression of a
variable has one degree-1 term per index row, coefficient 1, keyed by the
row's dimension tuple and the allocated id. -/
def PfVariable.toExpr (v : PfVariable) : Expression :=
  Expression.mk v.dims ((v.rows.zip v.ids).map (fun p => ((p.1, p.2), Dec.mk 1 0))) []

/-- Scalar user variable creation (no index table). -/
def mkScalarVar (s : AllocState) (vt : VType) : PfVariable × AllocState :=
  createVariable s [] [[]] vt 0 0

/-- A sequence of scalar variable creations; returns all assigned ids in
creation order. -/
def createScalars : Nat → AllocState → List Nat × AllocState
  | 0, s => ([], s)
  | n + 1, s =>
    let p := mkScalarVar s VType.continuous
    let rest := createScalars n p.2
    (p.1.ids ++ rest.1, rest.2)

/-- Values that can be assigned to a model attribute in
`Model.__setattr__` (`pyoframe/model.py` lines 146-171): model elements
with an id (Variable, Constraint), data frames, or anything else. -/
inductive AttrValue where
  | varElem (v : PfVariable)
  | constrElem (c : PfConstraint)
  | dataFrame
  | other
deriving DecidableEq

/-- Embedded from `Model._reserved_attributes` in `pyoframe/model.py`
lines 34-51. -/
def reservedAttributes : List String :=
  [ "_variables", "_constraints", "_objective", "var_map", "io_mappers",
    "name", "solver", "poi", "params", "result", "attr", "sense",
    "objective", "_use_var_names", "ONE", "solver_name"]

/-- Class-level attributes of `Model` (properties and methods), which make
Python's `hasattr` true even before any instance assignment. -/
def modelClassAttributes : List String :=
  [ "use_var_names", "variables", "binary_variables", "integer_variables",
    "constraints", "write", "optimize", "create_pyoptint_model",
    "_reserved_attributes", "_set_param", "_get_param", "_set_attr", "_get_attr"]

/-- State of a `Model`: its registered variable and constraint lists and
its instance attribute dictionary. -/
structure ModelState where
  varList : List PfVariable
  constrList : List PfConstraint
  attrs : List (String × AttrValue)
deriving DecidableEq

/-- Errors raised by `Model.__setattr__`: the `PyoframeError` for a value
that is not a model element or data frame, and the failed
`assert not hasattr(...)` when an element with an id was already created
under the name (the spec's `DuplicateElementError`). -/
inductive SetAttrError where
  | notModelElement (name : String)
  | duplicateElement (name : String)
deriving DecidableEq

/-- `isinstance(value, ModelElement)` for attribute values. -/
def isModelElementV : AttrValue → Bool
  | AttrValue.varElem _ => true
  | AttrValue.constrElem _ => true
  | _ => false

/-- `isinstance(value, (pl.DataFrame, pd.DataFrame))`. -/
def isDataFrameV : AttrValue → Bool
  | AttrValue.dataFrame => true
  | _ => false

/-- `isinstance(value, ModelElementWithId)`: both Variable and Constraint
carry ids. -/
def hasIdV : AttrValue → Bool
  | AttrValue.varElem _ => true
  | AttrValue.constrElem _ => true
  | _ => false

/-- Python's `hasattr(self, name)` for the embedded model: true for class
attributes and for any instance attribute already set. -/
def hasattrB (m : ModelState) (n : String) : Bool :=
  decide (n ∈ modelClassAttributes) || m.attrs.any (fun p => decide (p.1 = n))

/-- `object.__setattr__` on the instance dictionary: replace in place when
the name exists (Python dicts keep insertion position), append otherwise. -/
def setAttrDict (attrs : List (String × AttrValue)) (n : String) (v : AttrValue) :
    List (String × AttrValue) :=
  if attrs.any (fun p => decide (p.1 = n)) then
    attrs.map (fun p => if p.1 = n then (p.1, v) else p)
  else attrs ++ [(n, v)]

/-- Embedded from `Model.__setattr__` in `pyoframe/model.py` lines
146-171: reject a non-element value on a non-reserved name; for a model
element on a non-reserved name, fail if an attribute of that name already
exists (elements with ids), otherwise register a Variable in the variable
list or a Constraint in the constraint list; finally set the attribute. -/
def Model.setattr (m : ModelState) (n : String) (v : AttrValue) :
    Except SetAttrError ModelState :=
  if ¬ n ∈ reservedAttributes ∧ ¬ (isModelElementV v || isDataFrameV v) then
    Except.error (SetAttrError.notModelElement n)
  else if isModelElementV v ∧ ¬ n ∈ reservedAttributes then
    if hasIdV v ∧ hasattrB m n then
      Except.error (SetAttrError.duplicateElement n)
    else
      let vars' := match v with
        | AttrValue.varElem pv => m.varList ++ [pv]
        | _ => m.varList
      let cons' := match v with
        | AttrValue.constrElem pc => m.constrList ++ [pc]
        | _ => m.constrList
      Except.ok (ModelState.mk vars' cons' (setAttrDict m.attrs n v))
  else Except.ok (ModelState.mk m.varList m.constrList (setAttrDict m.attrs n v))

/-- Embedded from `Model.binary_variables` in `pyoframe/model.py` lines
108-118: the filter tests `v.vtype == VType.INTEGER`. -/
def binary_variables (m : ModelState) : List PfVariable :=
  m.varList.filter (fun v => decide (v.vtype = VType.integer))

/-- Embedded from `Model.integer_variables` in `pyoframe/model.py` lines
120-130: the filter tests `v.vtype == VType.INTEGER`. -/
def integer_variables (m : ModelState) : List PfVariable :=
  m.varList.filter (fun v => decide (v.vtype = VType.integer))

/-- The four scalar variables of `test_variables_to_string` and the
quadratic tests, created in order on a fresh model: ids 1, 2, 3, 4. -/
def sv1 : PfVariable × AllocState := mkScalarVar m0 VType.continuous

def sv2 : PfVariable × AllocState := mkScalarVar sv1.2 VType.continuous

def sv3 : PfVariable × AllocState := mkScalarVar sv2.2 VType.continuous

def sv4 : PfVariable × AllocState := mkScalarVar sv3.2 VType.continuous

/-- The expression of `test_variables_to_string`:
`5 * Variable() + 3.4 * Variable() - 2.1 * Variable() + 1.1231237019273 * Variable()`. -/
def exprC2 : Except PfError Expression := do
  let a1 ← Expression.add (scalarMul (Dec.mk 5 0) sv1.1.toExpr)
    (scalarMul (Dec.mk 34 1) sv2.1.toExpr)
  let a2 ← Expression.add a1 (Expression.neg (scalarMul (Dec.mk 21 1) sv3.1.toExpr))
  Expression.add a2 (scalarMul (Dec.mk 11231237019273 13) sv4.1.toExpr)

/-- The expression of `test_quadratic_objective_to_str` and
`test_quadratic_constraints_to_str`:
`5 * Variable() - 2 * Variable() ** 2 + 3 + 2 * Variable() + 4 * Variable() ** 2`
built in Python evaluation order on a fresh model (variable ids 1-4). -/
def exprC3 : Except PfError Expression := do
  let q2 ← Expression.square sv2.1.toExpr
  let q4 ← Expression.square sv4.1.toExpr
  let a2 ← Expression.sub (scalarMul (Dec.mk 5 0) sv1.1.toExpr) (scalarMul (Dec.mk 2 0) q2)
  let a3 ← Expression.add a2 (constExpr (Dec.mk 3 0))
  let a4 ← Expression.add a3 (scalarMul (Dec.mk 2 0) sv3.1.toExpr)
  Expression.add a4 (scalarMul (Dec.mk 4 0) q4)

/-- The constraint of `test_quadratic_constraints_to_str`: the quadratic
expression compared `== 0`. -/
def constrC3 : Except PfError PfConstraint :=
  exprC3.bind (fun e => mkConstraint e (constExpr (Dec.mk 0 0)) PfRel.eq)

/-- The expression of `test_expression_with_const_to_str`:
`5 + 2 * Variable()`, whose reflected addition appends the constant after
the variable term. -/
def exprC5 : Except PfError Expression :=
  Expression.add (scalarMul (Dec.mk 2 0) sv1.1.toExpr) (constExpr (Dec.mk 5 0))

/-- The index table of `test_variables_to_string_with_dimensions`:
columns x = [1, 2, 1, 2] and y = [1, 1, 2, 2], so the row tuples are
[1,1], [2,1], [1,2], [2,2] in table order. -/
def dfRows : List DimKey :=
  [[1, 1], [2, 1], [1, 2], [2, 2]]

def dfDims : List String :=
  [ "x", "y"]

/-- The four dimensioned variables of the fixture, each over the same
4-row table, created in order on a fresh model. -/
def dv1 : PfVariable × AllocState := createVariable m0 dfDims dfRows VType.continuous 0 0

def dv2 : PfVariable × AllocState := createVariable dv1.2 dfDims dfRows VType.continuous 0 0

def dv3 : PfVariable × AllocState := createVariable dv2.2 dfDims dfRows VType.continuous 0 0

def dv4 : PfVariable × AllocState := createVariable dv3.2 dfDims dfRows VType.continuous 0 0

/-- The dimensioned expression of the fixture
`expression_with_dimensions`. -/
def exprC4 : Except PfError Expression := do
  let a1 ← Expression.add (scalarMul (Dec.mk 5 0) dv1.1.toExpr)
    (scalarMul (Dec.mk 34 1) dv2.1.toExpr)
  let a2 ← Expression.add a1 (Expression.neg (scalarMul (Dec.mk 21 1) dv3.1.toExpr))
  Expression.add a2 (scalarMul (Dec.mk 11231237019273 13) dv4.1.toExpr)

/-- Fixture for the degree-overflow and commutativity witnesses: a bare
degree-1 expression over variable 1. -/
def exprLinW : Expression :=
  Expression.mk [] [(([], 1), Dec.mk 1 0)] []

/-- Fixture: a bare quadratic expression over variable 1. -/
def exprQuadW : Expression :=
  Expression.mk [] [] [(([], (1, 1)), Dec.mk 1 0)]

/-- Result of `exprLinW + 1` (variable term first, constant appended). -/
def rW1 : Expression :=
  Expression.mk [] [(([], 1), Dec.mk 1 0), (([], CONST_TERM), Dec.mk 1 0)] []

/-- Result of `1 + exprLinW` (constant term first). -/
def rW2 : Expression :=
  Expression.mk [] [(([], CONST_TERM), Dec.mk 1 0), (([], 1), Dec.mk 1 0)] []

/-- Insertion trace for the merge-order witness. -/
def opsW : List (Nat × Dec) :=
  [(1, Dec.mk 5 0), (2, Dec.mk 1 0), (1, Dec.mk 2 0)]

/-- Pre-existing bucket for the merge-order witness. -/
def bW : List (Nat × Dec) :=
  [(1, Dec.mk 5 0)]

/-- Fixture variable for the registration witness. -/
def pvW : PfVariable :=
  PfVariable.mk [1] [] [[]] VType.continuous 0 0

/-- Fixture model with no attributes set. -/
def mW : ModelState :=
  ModelState.mk [] [] []

/-- Fixture model where the name X is already taken by a variable. -/
def m2W : ModelState :=
  ModelState.mk [pvW] [] [( "X", AttrValue.varElem pvW)]

/-- Fixture binary variable for the vtype-filter witness. -/
def pvBinW : PfVariable :=
  PfVariable.mk [1] [] [[]] VType.binary 0 0

/-- Fixture model holding one binary variable. -/
def mBW : ModelState :=
  ModelState.mk [pvBinW] [] []

theorem pow10_sub_mul (x y z : Nat) (h1 : x ≤ y) (h2 : y ≤ z) :
    (10 : Int) ^ (y - x) * 10 ^ (z - y) = 10 ^ (z - x) := by
  rw [← pow_add]
  congr 1
  omega

theorem Dec.add_zero (a : Dec) : Dec.add a (Dec.mk 0 0) = a := by
  cases a with
  | mk m e => simp [Dec.add]

theorem Dec.zero_add (a : Dec) : Dec.add (Dec.mk 0 0) a = a := by
  cases a with
  | mk m e => simp [Dec.add]

theorem Dec.add_comm (a b : Dec) : Dec.add a b = Dec.add b a := by
  simp only [Dec.add, Dec.mk.injEq]
  constructor
  · rw [Nat.max_comm b.e a.e]
    exact Int.add_comm _ _
  · exact Nat.max_comm _ _

theorem dec_scale_expand (am bm : Int) (ae be E : Nat) (hE : max ae be ≤ E) :
    (am * 10 ^ (max ae be - ae) + bm * 10 ^ (max ae be - be)) * 10 ^ (E - max ae be)
      = am * 10 ^ (E - ae) + bm * 10 ^ (E - be) := by
  rw [add_mul, mul_assoc, mul_assoc,
    pow10_sub_mul ae (max ae be) E (Nat.le_max_left _ _) hE,
    pow10_sub_mul be (max ae be) E (Nat.le_max_right _ _) hE]

theorem Dec.add_assoc (a b c : Dec) :
    Dec.add (Dec.add a b) c = Dec.add a (Dec.add b c) := by
  have e1 : max (max a.e b.e) c.e = max a.e (max b.e c.e) := max_assoc a.e b.e c.e
  simp only [Dec.add, Dec.mk.injEq]
  refine ⟨?_, e1⟩
  rw [dec_scale_expand a.m b.m a.e b.e (max (max a.e b.e) c.e) (Nat.le_max_left _ _),
    dec_scale_expand b.m c.m b.e c.e (max a.e (max b.e c.e)) (Nat.le_max_right _ _),
    e1]
  ring

theorem decSum_append (l1 l2 : List Dec) :
    decSum (l1 ++ l2) = Dec.add (decSum l1) (decSum l2) := by
  induction l1 with
  | nil => simp [decSum, Dec.zero_add]
  | cons c rest ih => simp [decSum, ih, Dec.add_assoc]

theorem mergeTerm_keys {κ : Type} [DecidableEq κ] (b : List (κ × Dec)) (k : κ) (c : Dec) :
    (mergeTerm b k c).map Prod.fst = addKey (b.map Prod.fst) k := by
  induction b with
  | nil => simp [mergeTerm, addKey]
  | cons e rest ih =>
    by_cases h : e.1 = k
    · simp [mergeTerm, h, addKey]
    · have h' : ¬ k = e.1 := fun hk => h hk.symm
      by_cases hm : k ∈ rest.map Prod.fst
      · simp [mergeTerm, h, ih, addKey, hm, h']
      · simp [mergeTerm, h, ih, addKey, hm, h']

theorem insertAll_keys {κ : Type} [DecidableEq κ] (ops b : List (κ × Dec)) :
    (insertAll b ops).map Prod.fst = (ops.map Prod.fst).foldl addKey (b.map Prod.fst) := by
  induction ops generalizing b with
  | nil => rfl
  | cons p rest ih =>
    show (insertAll (mergeTerm b p.1 p.2) rest).map Prod.fst = _
    rw [ih, mergeTerm_keys]
    rfl

theorem findCoeff?_mergeTerm_self {κ : Type} [DecidableEq κ]
    (b : List (κ × Dec)) (k : κ) (c : Dec) :
    findCoeff? (mergeTerm b k c) k
      = some (Dec.add ((findCoeff? b k).getD (Dec.mk 0 0)) c) := by
  induction b with
  | nil => simp [mergeTerm, findCoeff?, Dec.zero_add]
  | cons e rest ih =>
    by_cases h : e.1 = k
    · simp [mergeTerm, h, findCoeff?]
    · simp [mergeTerm, h, findCoeff?, ih]

theorem findCoeff?_mergeTerm_ne {κ : Type} [DecidableEq κ]
    (b : List (κ × Dec)) (k : κ) (c : Dec) (k' : κ) (h : ¬ k' = k) :
    findCoeff? (mergeTerm b k c) k' = findCoeff? b k' := by
  induction b with
  | nil =>
    have h' : ¬ k = k' := fun hk => h hk.symm
    simp [mergeTerm, findCoeff?, h']
  | cons e rest ih =>
    have hkk : ¬ k = k' := fun hk => h hk.symm
    by_cases he : e.1 = k
    · simp [mergeTerm, he, findCoeff?, hkk]
    · simp [mergeTerm, he, findCoeff?, ih]

theorem coeffTotal_cons_self {κ : Type} [DecidableEq κ]
    (p : κ × Dec) (rest : List (κ × Dec)) (k : κ) (h : p.1 = k) :
    coeffTotal (p :: rest) k = Dec.add p.2 (coeffTotal rest k) := by
  simp [coeffTotal, h, decSum]

theorem coeffTotal_cons_ne {κ : Type} [DecidableEq κ]
    (p : κ × Dec) (rest : List (κ × Dec)) (k : κ) (h : ¬ p.1 = k) :
    coeffTotal (p :: rest) k = coeffTotal rest k := by
  simp [coeffTotal, h]

theorem coeffTotal_of_not_mem {κ : Type} [DecidableEq κ]
    (ops : List (κ × Dec)) (k : κ) (h : ¬ k ∈ ops.map Prod.fst) :
    coeffTotal ops k = Dec.mk 0 0 := by
  induction ops with
  | nil => rfl
  | cons p rest ih =>
    have h1 : ¬ p.1 = k := fun hk => h (by simp [hk])
    have h2 : ¬ k ∈ rest.map Prod.fst := fun hk => h (by simp [hk])
    rw [coeffTotal_cons_ne p rest k h1]
    exact ih h2

theorem coeffTotal_append {κ : Type} [DecidableEq κ]
    (l1 l2 : List (κ × Dec)) (k : κ) :
    coeffTotal (l1 ++ l2) k = Dec.add (coeffTotal l1 k) (coeffTotal l2 k) := by
  simp [coeffTotal, List.filter_append, decSum_append]

theorem findCoeff?_insertAll {κ : Type} [DecidableEq κ]
    (ops b : List (κ × Dec)) (k : κ) :
    findCoeff? (insertAll b ops) k =
      if k ∈ ops.map Prod.fst
      then some (Dec.add ((findCoeff? b k).getD (Dec.mk 0 0)) (coeffTotal ops k))
      else findCoeff? b k := by
  induction ops generalizing b with
  | nil => simp [insertAll]
  | cons p rest ih =>
    show findCoeff? (insertAll (mergeTerm b p.1 p.2) rest) k = _
    rw [ih]
    by_cases hpk : p.1 = k
    · subst hpk
      rw [findCoeff?_mergeTerm_self]
      by_cases hm : p.1 ∈ rest.map Prod.fst
      · rw [if_pos hm, if_pos (by simp), coeffTotal_cons_self p rest p.1 rfl]
        simp [Dec.add_assoc]
      · rw [if_neg hm, if_pos (by simp), coeffTotal_cons_self p rest p.1 rfl,
          coeffTotal_of_not_mem rest p.1 hm, Dec.add_zero]
    · have hk : ¬ k = p.1 := fun h => hpk h.symm
      rw [findCoeff?_mergeTerm_ne b p.1 p.2 k hk, coeffTotal_cons_ne p rest k hpk]
      have hmem : (k ∈ (p :: rest).map Prod.fst) ↔ (k ∈ rest.map Prod.fst) := by
        simp [hk]
      by_cases hm : k ∈ rest.map Prod.fst
      · rw [if_pos hm, if_pos (hmem.mpr hm)]
      · rw [if_neg hm, if_neg (fun hx => hm (hmem.mp hx))]

theorem strictSubDims_asymm (d1 d2 : List String) (h : strictSubDims d1 d2 = true) :
    strictSubDims d2 d1 = false := by
  cases hx : subsetDims d2 d1
  · simp [strictSubDims, hx]
  · exfalso
    simp [strictSubDims, hx] at h

theorem align_swap (a b : Expression) (p : Expression × Expression)
    (h : align a b = some p) :
    align b a = some (p.2, p.1) ∧ p.1.dims = p.2.dims := by
  unfold align at h ⊢
  by_cases h1 : a.dims = b.dims
  · rw [if_pos h1] at h
    have hp : p = (a, b) := by
      injection h with h
      exact h.symm
    subst hp
    rw [if_pos h1.symm]
    exact ⟨rfl, h1⟩
  · rw [if_neg h1] at h
    have h1' : ¬ b.dims = a.dims := fun hx => h1 hx.symm
    by_cases h2 : strictSubDims a.dims b.dims = true
    · rw [if_pos h2] at h
      have hp : p = (broadcast b a, b) := by
        injection h with h
        exact h.symm
      subst hp
      rw [if_neg h1', if_neg (by simp [strictSubDims_asymm a.dims b.dims h2]), if_pos h2]
      exact ⟨rfl, rfl⟩
    · rw [if_neg h2] at h
      by_cases h3 : strictSubDims b.dims a.dims = true
      · rw [if_pos h3] at h
        have hp : p = (a, broadcast a b) := by
          injection h with h
          exact h.symm
        subst hp
        rw [if_neg h1', if_pos h3]
        exact ⟨rfl, rfl⟩
      · rw [if_neg h3] at h
        exact absurd h (by simp)

/-- C1: for every expression built by any sequence of arithmetic
operations, the position of each term in the rendered output (which
iterates the buckets in stored order, per dimension-key group and degree
bucket) equals the position at which that term key was first introduced:
folding any insertion trace through the merge algorithm yields exactly the
first-occurrence key sequence of the trace, each key's coefficient is the
sum of all contributions carried by that key, and merging into an existing
key leaves the key sequence unchanged (summing in place, never moving the
term to the end). -/
theorem merge_preserves_first_introduced_position {κ : Type} [DecidableEq κ]
    (ops : List (κ × Dec)) (k : κ) (b : List (κ × Dec)) (c : Dec) (k' : κ)
    (h : k' ∈ b.map Prod.fst) :
    (insertAll [] ops).map Prod.fst = firstOccur (ops.map Prod.fst)
    ∧ findCoeff? (insertAll [] ops) k
        = (if k ∈ ops.map Prod.fst then some (coeffTotal ops k) else none)
    ∧ (mergeTerm b k' c).map Prod.fst = b.map Prod.fst
    ∧ findCoeff? (mergeTerm b k' c) k'
        = some (Dec.add ((findCoeff? b k').getD (Dec.mk 0 0)) c) := by
  refine ⟨?_, ?_, ?_, findCoeff?_mergeTerm_self b k' c⟩
  · rw [insertAll_keys]
    rfl
  · rw [findCoeff?_insertAll]
    by_cases hm : k ∈ ops.map Prod.fst
    · rw [if_pos hm, if_pos hm]
      show some (Dec.add ((none : Option Dec).getD (Dec.mk 0 0)) _) = _
      rw [Option.getD_none, Dec.zero_add]
    · rw [if_neg hm, if_neg hm]
      rfl
  · rw [mergeTerm_keys, addKey, if_pos h]

/-- Witness for C1 at a concrete insertion trace and bucket. -/
theorem merge_preserves_first_introduced_position_witness :
    ((1 : Nat) ∈ bW.map Prod.fst)
    ∧ ((insertAll [] opsW).map Prod.fst = firstOccur (opsW.map Prod.fst)
      ∧ findCoeff? (insertAll [] opsW) 1
          = (if (1 : Nat) ∈ opsW.map Prod.fst then some (coeffTotal opsW 1) else none)
      ∧ (mergeTerm bW 1 (Dec.mk 3 0)).map Prod.fst = bW.map Prod.fst
      ∧ findCoeff? (mergeTerm bW 1 (Dec.mk 3 0)) 1
          = some (Dec.add ((findCoeff? bW 1).getD (Dec.mk 0 0)) (Dec.mk 3 0))) :=
  ⟨by decide,
    merge_preserves_first_introduced_position opsW 1 bW (Dec.mk 3 0) 1 (by decide)⟩

/-- C2: on a fresh model, the expression
5 * Variable() + 3.4 * Variable() - 2.1 * Variable() + 1.1231237019273 * Variable()
renders via str exactly as the reference string: no leading plus on the
first term, an explicit sign glued to every later number, and the decimal
coefficients reproduced with their input precision exactly. -/
theorem scalar_roundtrip_render :
    exprC2.map pyStr = Except.ok "5 x1 +3.4 x2 -2.1 x3 +1.1231237019273 x4" := by
  rfl

/-- C5: adding a scalar constant on the left of a variable expression
(`5 + 2 * Variable()`, evaluated through the reflected addition as
expression-plus-constant) appends the constant term after the variable
term, so the render is "2 x1 +5" with an explicit sign on the constant. -/
theorem constant_append_position_render :
    exprC5.map pyStr = Except.ok "2 x1 +5" := by
  rfl

theorem createScalars_from (n k : Nat) :
    (createScalars n (AllocState.mk k)).1 = List.range' k n
    ∧ (createScalars n (AllocState.mk k)).2 = AllocState.mk (k + n) := by
  induction n generalizing k with
  | zero => simp [createScalars, List.range']
  | succ n ih =>
    have h := ih (k + 1)
    constructor
    · show [0 + k] ++ (createScalars n (AllocState.mk (k + 1))).1 = _
      rw [h.1, List.range'_succ]
      simp
    · show (createScalars n (AllocState.mk (k + 1))).2 = _
      rw [h.2]
      congr 1
      omega

/-- C6: on a fresh model, any sequence of N scalar variable creations with
no index table receives exactly the ids 1..N in creation order; id 0 is
consumed at model construction by the constant variable ONE (bounds fixed
at 1) before any user ids are issued, and is never assigned to a
user-created variable. -/
theorem scalar_ids_sequential_and_zero_reserved (n : Nat) :
    (createScalars n m0).1 = List.range' 1 n
    ∧ ¬ 0 ∈ (createScalars n m0).1
    ∧ create_pyoptint_model.1.ids = [0]
    ∧ create_pyoptint_model.1.lb = 1
    ∧ create_pyoptint_model.1.ub = 1
    ∧ m0.next = 1 := by
  have hm : m0 = AllocState.mk 1 := rfl
  have h := createScalars_from n 1
  refine ⟨hm ▸ h.1, ?_, rfl, rfl, rfl, rfl⟩
  rw [hm, h.1]
  intro hx
  have := List.mem_range'_1.mp hx
  omega

/-- C3: with quadratic terms present each quadratic coefficient is
multiplied by the quadratic divider for display and the bracketed block is
suffixed by the divider unless it equals one; in particular the objective
expression 5 v1 - 2 v2^2 + 3 + 2 v3 + 4 v4^2 rendered with divider 2 and
the constant kept as a term of the reserved variable x0 gives exactly the
reference string, and the same expression as a constraint == 0 with
divider 1 renders with unscaled coefficients, no suffix, and the constant
folded to -3 on the right-hand side. -/
theorem quadratic_divider_render :
    exprC3.map (fun e => renderStr e true false true (Dec.mk 2 0))
      = Except.ok "5 x1 +3 x0 +2 x3 + [ -4 x2 * x2 +8 x4 * x4 ] / 2"
    ∧ constrC3.map (fun c => constraintRenderStr c true (Dec.mk 1 0))
      = Except.ok "5 x1 +2 x3 + [ -2 x2 * x2 +4 x4 * x4 ] = -3" := by
  exact ⟨rfl, rfl⟩

/-- C4: over the 4-row table with columns x = [1,2,1,2] and y = [1,1,2,2],
the rendered group headers appear in the literal table-row order [1,1],
[2,1], [1,2], [2,2] (never re-sorted), and the ids of successive
dimensioned variable creations differ row-for-row by exactly the table
size (x1, x5, x9, x13 on the first row). -/
theorem dimensional_group_order_render :
    exprC4.map (fun e => renderStr e true false false (Dec.mk 1 0))
      = Except.ok "[1,1]: 5 x1 +3.4 x5 -2.1 x9 +1.1231237019273 x13\n[2,1]: 5 x2 +3.4 x6 -2.1 x10 +1.1231237019273 x14\n[1,2]: 5 x3 +3.4 x7 -2.1 x11 +1.1231237019273 x15\n[2,2]: 5 x4 +3.4 x8 -2.1 x12 +1.1231237019273 x16"
    ∧ dfRows.length = 4
    ∧ dv2.1.ids = dv1.1.ids.map (fun i => i + 4)
    ∧ dv3.1.ids = dv2.1.ids.map (fun i => i + 4)
    ∧ dv4.1.ids = dv3.1.ids.map (fun i => i + 4) := by
  exact ⟨rfl, rfl, rfl, rfl, rfl⟩

/-- C7: any multiplication whose result would have polynomial degree above
two (in either operand order), and squaring an expression that is already
quadratic, fails with UnsupportedOperationError carrying the message
"only linear and quadratic expressions are supported". -/
theorem degree_overflow_rejected (a b : Expression)
    (h1 : 2 < a.degree + b.degree) (h2 : 1 < b.degree) :
    Expression.mul a b = Except.error (PfError.unsupportedOperation unsupportedMsg)
    ∧ Expression.mul b a = Except.error (PfError.unsupportedOperation unsupportedMsg)
    ∧ Expression.square b = Except.error (PfError.unsupportedOperation unsupportedMsg) := by
  have h1' : 2 < b.degree + a.degree := by omega
  have h3 : 2 < b.degree + b.degree := by omega
  refine ⟨?_, ?_, ?_⟩
  · unfold Expression.mul
    rw [if_pos h1]
  · unfold Expression.mul
    rw [if_pos h1']
  · unfold Expression.square Expression.mul
    rw [if_pos h3]

/-- Witness for C7: a linear times a quadratic expression, the quadratic
times the linear one, and the square of the quadratic all fail. -/
theorem degree_overflow_rejected_witness :
    (2 < exprLinW.degree + exprQuadW.degree)
    ∧ (1 < exprQuadW.degree)
    ∧ (Expression.mul exprLinW exprQuadW
        = Except.error (PfError.unsupportedOperation unsupportedMsg)
      ∧ Expression.mul exprQuadW exprLinW
        = Except.error (PfError.unsupportedOperation unsupportedMsg)
      ∧ Expression.square exprQuadW
        = Except.error (PfError.unsupportedOperation unsupportedMsg)) :=
  ⟨by decide, by decide,
    degree_overflow_rejected exprLinW exprQuadW (by decide) (by decide)⟩

theorem findCoeff?_insertAll_append_comm {κ : Type} [DecidableEq κ]
    (l1 l2 : List (κ × Dec)) (k : κ) :
    findCoeff? (insertAll [] (l1 ++ l2)) k = findCoeff? (insertAll [] (l2 ++ l1)) k := by
  rw [findCoeff?_insertAll, findCoeff?_insertAll]
  by_cases hm : k ∈ (l1 ++ l2).map Prod.fst
  · have hm' : k ∈ (l2 ++ l1).map Prod.fst := by
      simp only [List.map_append, List.mem_append] at hm ⊢
      tauto
    rw [if_pos hm, if_pos hm', coeffTotal_append, coeffTotal_append,
      Dec.add_comm (coeffTotal l1 k) (coeffTotal l2 k)]
  · have hm' : ¬ k ∈ (l2 ++ l1).map Prod.fst := by
      simp only [List.map_append, List.mem_append] at hm ⊢
      tauto
    rw [if_neg hm, if_neg hm']

/-- C9: for every pair of expressions with compatible dimension sets,
Add(A,B) and Add(B,A) produce expressions with identical
(dimension-key, term-key) to coefficient mappings in both degree buckets
(and the same dimension columns), though the stored term order may
differ. -/
theorem add_value_commutative (a b r1 r2 : Expression)
    (k : DimKey × Nat) (kq : DimKey × (Nat × Nat))
    (h1 : Expression.add a b = Except.ok r1)
    (h2 : Expression.add b a = Except.ok r2) :
    r1.dims = r2.dims
    ∧ findCoeff? r1.lin k = findCoeff? r2.lin k
    ∧ findCoeff? r1.quad kq = findCoeff? r2.quad kq := by
  cases hal : align a b with
  | none =>
    unfold Expression.add at h1
    rw [hal] at h1
    exact absurd h1 (by simp)
  | some p =>
    obtain ⟨hswap, hdims⟩ := align_swap a b p hal
    unfold Expression.add at h1 h2
    rw [hal] at h1
    rw [hswap] at h2
    have hr1 : r1 = Expression.mk p.1.dims (insertAll [] (p.1.lin ++ p.2.lin))
        (insertAll [] (p.1.quad ++ p.2.quad)) := by
      injection h1 with h
      exact h.symm
    have hr2 : r2 = Expression.mk p.2.dims (insertAll [] (p.2.lin ++ p.1.lin))
        (insertAll [] (p.2.quad ++ p.1.quad)) := by
      injection h2 with h
      exact h.symm
    subst hr1
    subst hr2
    exact ⟨hdims, findCoeff?_insertAll_append_comm p.1.lin p.2.lin k,
      findCoeff?_insertAll_append_comm p.1.quad p.2.quad kq⟩

/-- Witness for C9: a one-variable expression plus a constant, in both
orders. -/
theorem add_value_commutative_witness :
    Expression.add exprLinW (constExpr (Dec.mk 1 0)) = Except.ok rW1
    ∧ Expression.add (constExpr (Dec.mk 1 0)) exprLinW = Except.ok rW2
    ∧ (rW1.dims = rW2.dims
      ∧ findCoeff? rW1.lin ([], 1) = findCoeff? rW2.lin ([], 1)
      ∧ findCoeff? rW1.quad ([], (1, 1)) = findCoeff? rW2.quad ([], (1, 1))) :=
  ⟨rfl, rfl,
    add_value_commutative exprLinW (constExpr (Dec.mk 1 0)) rW1 rW2 ([], 1) ([], (1, 1))
      rfl rfl⟩

/-- C8: assigning a model element to a model attribute registers it
exactly once: a variable assigned under a fresh non-reserved name is
appended to the model's variable list (and recorded in the attribute
dictionary) in one step; assigning an element with an id under a name
that already has an attribute is an error (the spec's
DuplicateElementError); and assigning a value that is neither a model
element nor a data frame to a non-reserved name raises an error. -/
theorem setattr_registration_rules (m m2 : ModelState) (n : String) (pv pv' : PfVariable)
    (hr : ¬ n ∈ reservedAttributes)
    (hc : ¬ n ∈ modelClassAttributes)
    (ha : m.attrs.any (fun p => decide (p.1 = n)) = false)
    (hb : hasattrB m2 n = true) :
    Model.setattr m n (AttrValue.varElem pv)
      = Except.ok (ModelState.mk (m.varList ++ [pv]) m.constrList
          (m.attrs ++ [(n, AttrValue.varElem pv)]))
    ∧ Model.setattr m2 n (AttrValue.varElem pv')
      = Except.error (SetAttrError.duplicateElement n)
    ∧ Model.setattr m n AttrValue.other
      = Except.error (SetAttrError.notModelElement n) := by
  have hb' : hasattrB m n = false := by
    simp [hasattrB, hc, ha]
  refine ⟨?_, ?_, ?_⟩
  · unfold Model.setattr
    rw [if_neg (by simp [isModelElementV]), if_pos (by simp [isModelElementV, hr]),
      if_neg (by simp [hasIdV, hb'])]
    unfold setAttrDict
    rw [if_neg (by simp [ha])]
  · unfold Model.setattr
    rw [if_neg (by simp [isModelElementV]), if_pos (by simp [isModelElementV, hr]),
      if_pos (by simp [hasIdV, hb])]
  · unfold Model.setattr
    rw [if_pos (by simp [isModelElementV, isDataFrameV, hr])]

/-- Witness for C8 on a fresh model and a model that already has the
attribute X. -/
theorem setattr_registration_rules_witness :
    (¬ "X" ∈ reservedAttributes)
    ∧ (¬ "X" ∈ modelClassAttributes)
    ∧ (mW.attrs.any (fun p => decide (p.1 = "X")) = false)
    ∧ (hasattrB m2W "X" = true)
    ∧ (Model.setattr mW "X" (AttrValue.varElem pvW)
        = Except.ok (ModelState.mk (mW.varList ++ [pvW]) mW.constrList
            (mW.attrs ++ [( "X", AttrValue.varElem pvW)]))
      ∧ Model.setattr m2W "X" (AttrValue.varElem pvW)
        = Except.error (SetAttrError.duplicateElement "X")
      ∧ Model.setattr mW "X" AttrValue.other
        = Except.error (SetAttrError.notModelElement "X")) :=
  ⟨by decide, by decide, rfl, by decide,
    setattr_registration_rules mW m2W "X" pvW pvW (by decide) (by decide) rfl (by decide)⟩

/-- C10: the binary_variables and integer_variables properties yield
exactly the same variables, both filtering on vtype equal to INTEGER, so a
variable created with vtype BINARY is never yielded by binary_variables. -/
theorem binary_eq_integer_variables (m : ModelState) (v : PfVariable)
    (h : v ∈ m.varList) (hb : v.vtype = VType.binary) :
    binary_variables m = integer_variables m ∧ ¬ v ∈ binary_variables m := by
  refine ⟨rfl, ?_⟩
  intro hmem
  have hp := (List.mem_filter.mp hmem).2
  rw [hb] at hp
  exact absurd (of_decide_eq_true hp) (by decide)

/-- Witness for C10: a model holding one binary variable, which
binary_variables does not yield. -/
theorem binary_eq_integer_variables_witness :
    (pvBinW ∈ mBW.varList)
    ∧ (pvBinW.vtype = VType.binary)
    ∧ (binary_variables mBW = integer_variables mBW
      ∧ ¬ pvBinW ∈ binary_variables mBW) :=
  ⟨by decide, rfl, binary_eq_integer_variables mBW pvBinW (by decide) rfl⟩
